import Mathlib

/-!
Verification of the record-discovery, key-resolution and transaction-build
orchestration layer of an Aleo SDK client library.

The JavaScript source is embedded shallowly:
* the method findUnspentRecords of AleoNetworkClient (block scan for
  unspent records) together with getTransitionId (the spent oracle);
* the methods functionKeys, fetchKeys and getKeys of AleoKeyProvider
  (key resolution);
* the method findCreditsRecords of NetworkRecordProvider (default-height
  policy layer);
* the methods buildTransferTransaction, buildExecutionTransaction and run
  of ProgramManager, together with validateTransferType,
  requiresAmountRecord, getCreditsRecord and the transfer-type
  vocabularies.

Network calls and wasm cryptography (record decryption, ownership test,
serial-number derivation, key deserialization) are injected collaborators
in the source; they are modelled as explicit environment records of pure
functions, so every definition is executable.
-/

namespace AleoSdk

/-! Data model for the record-discovery engine. -/

/-- Decrypted record data.  The field owned models the wasm call
record.isOwner(viewKey); nonce, serial and microcredits model the calls
nonce(), serialNumberString(privateKey, "credits.aleo", "credits") and
microcredits() on the decrypted record plaintext. -/
structure Rec where
  owned : Bool
  nonce : String
  serial : String
  microcredits : Nat
deriving DecidableEq, Repr

/-- Transition output, with fields output.type and output.value. -/
structure Output where
  otype : String
  value : String
deriving DecidableEq, Repr

/-- Transition, with fields transition.program and transition.outputs; the
outputs field may be undefined. -/
structure Transition where
  program : String
  outputs : Option (List Output)
deriving DecidableEq, Repr

/-- Execution part of a transaction; transitions may be undefined. -/
structure Execution where
  transitions : Option (List Transition)
deriving DecidableEq, Repr

/-- Body of a confirmed transaction; execution may be absent (falsy). -/
structure TransactionBody where
  execution : Option Execution
deriving DecidableEq, Repr

/-- Confirmed transaction, with fields confirmedTransaction.type and
confirmedTransaction.transaction. -/
structure ConfirmedTransaction where
  ctype : String
  transaction : TransactionBody
deriving DecidableEq, Repr

/-- Block; the transactions field may be undefined. -/
structure Block where
  transactions : Option (List ConfirmedTransaction)
deriving DecidableEq, Repr

/-- Environment of the network client: the remote Gateway plus the wasm
record layer.

* latestHeight models getLatestHeight() (error means the call threw or
  returned a non-number);
* blocks models getBlockRange(start, end) (error means the fetch threw);
* parseRecord models RecordCiphertext.fromString(output.value) followed by
  decryption with the resolved view key: none means one of those wasm
  calls threw (swallowed by the inner catch), some rec gives the decrypted
  data, with rec.owned the result of the ownership test;
* spent models getTransitionId(serialNumber): true means the lookup
  succeeded (a transition consuming the serial number exists, so the
  record is spent), false means the call threw (not found, unspent). -/
structure NetEnv where
  latestHeight : Except Unit Int
  blocks : Int → Int → Except Unit (List Block)
  parseRecord : String → Option Rec
  spent : String → Bool

/-- Mutable state of the scan loop: the accumulated records array and the
totalRecordValue counter. -/
structure ScanState where
  records : List Rec
  totalRecordValue : Nat
deriving DecidableEq, Repr

/-- Processing of one transition output inside findUnspentRecords.  The
value error l models an early return of the array l from the innermost
loop body; ok st means the scan goes on with state st. -/
def processOutput (env : NetEnv) (amounts : Option (List Nat))
    (maxMicrocredits : Option Nat) (nonces : List String)
    (st : ScanState) (output : Output) : Except (List Rec) ScanState :=
  if output.otype = "record" then
    match env.parseRecord output.value with
    | none => .ok st
    | some rec =>
      if rec.owned then
        if nonces.contains rec.nonce then .ok st
        else if env.spent rec.serial then .ok st
        else
          -- getTransitionId threw: the record is treated as unspent
          match amounts with
          | none =>
            -- the test (!amounts) holds: amounts is undefined
            let records := st.records ++ [rec]
            match maxMicrocredits with
            | some mx =>
              let total := st.totalRecordValue + rec.microcredits
              if mx ≤ total then .error records
              else .ok ⟨records, total⟩
            | none => .ok ⟨records, st.totalRecordValue⟩
          | some as =>
            -- the branch for defined amounts with amounts.length > 0
            match as with
            | [] => .ok st
            | a0 :: _ =>
              -- amounts_found is (re)initialised to 0 in this block, so
              -- the comparison is always against amounts[0]
              if a0 < rec.microcredits then
                let records := st.records ++ [rec]
                match maxMicrocredits with
                | some mx =>
                  let total := st.totalRecordValue + rec.microcredits
                  if mx ≤ total then .error records
                  else if as.length ≤ records.length then .error records
                  else .ok ⟨records, total⟩
                | none =>
                  if as.length ≤ records.length then .error records
                  else .ok ⟨records, st.totalRecordValue⟩
              else .ok st
      else .ok st
  else .ok st

/-- Left fold over a loop body that may return early. -/
def foldE (f : ScanState → α → Except (List Rec) ScanState) :
    ScanState → List α → Except (List Rec) ScanState
  | st, [] => .ok st
  | st, x :: xs =>
    match f st x with
    | .error r => .error r
    | .ok st' => foldE f st' xs

/-- Loop body over transitions: skip transitions of programs other than
credits.aleo, then walk the outputs when they are defined. -/
def processTransition (env : NetEnv) (amounts : Option (List Nat))
    (maxMicrocredits : Option Nat) (nonces : List String)
    (st : ScanState) (t : Transition) : Except (List Rec) ScanState :=
  if t.program ≠ "credits.aleo" then .ok st
  else
    match t.outputs with
    | none => .ok st
    | some outs => foldE (processOutput env amounts maxMicrocredits nonces) st outs

/-- Loop body over confirmed transactions: only execute transactions with
a defined execution.transitions are searched. -/
def processConfirmedTransaction (env : NetEnv) (amounts : Option (List Nat))
    (maxMicrocredits : Option Nat) (nonces : List String)
    (st : ScanState) (ct : ConfirmedTransaction) : Except (List Rec) ScanState :=
  if ct.ctype = "execute" then
    match ct.transaction.execution with
    | none => .ok st
    | some ex =>
      match ex.transitions with
      | none => .ok st
      | some ts => foldE (processTransition env amounts maxMicrocredits nonces) st ts
  else .ok st

/-- Loop body over blocks: skip blocks with undefined transactions. -/
def processBlock (env : NetEnv) (amounts : Option (List Nat))
    (maxMicrocredits : Option Nat) (nonces : List String)
    (st : ScanState) (b : Block) : Except (List Rec) ScanState :=
  match b.transactions with
  | none => .ok st
  | some ts => foldE (processConfirmedTransaction env amounts maxMicrocredits nonces) st ts

/-- Chunk start: start = end - 50, clamped below at startHeight. -/
def chunkStart (startHeight endH : Int) : Int :=
  if endH - 50 < startHeight then startHeight else endH - 50

/-- Scan loop of findUnspentRecords (while end > startHeight).  On a
successful chunk fetch the scan continues below start; on a failed fetch
the failure counter is incremented and, past 10 failures, the accumulated
records are returned as a normal result. -/
def findLoop (env : NetEnv) (startHeight : Int) (amounts : Option (List Nat))
    (maxMicrocredits : Option Nat) (nonces : List String)
    (endH : Int) (failures : Nat) (st : ScanState) : List Rec :=
  if h : startHeight < endH then
    let start := chunkStart startHeight endH
    match env.blocks start endH with
    | .ok blks =>
      match foldE (processBlock env amounts maxMicrocredits nonces) st blks with
      | .error r => r
      | .ok st' => findLoop env startHeight amounts maxMicrocredits nonces start failures st'
    | .error _ =>
      if hf : 10 < failures + 1 then st.records
      else findLoop env startHeight amounts maxMicrocredits nonces endH (failures + 1) st
  else st.records
termination_by (endH - startHeight).toNat * 12 + (11 - failures)
decreasing_by
  · unfold chunkStart; split <;> omega
  · omega

/-- Method findUnspentRecords(startHeight, endHeight, privateKey, amounts,
maxMicrocredits, nonces) of AleoNetworkClient.  The private-key and
view-key resolution is part of the wasm layer and is folded into the
fields parseRecord and spent of the environment; an error value models a
thrown Error. -/
def findUnspentRecords (env : NetEnv) (startHeight : Int)
    (endHeight : Option Int) (amounts : Option (List Nat))
    (maxMicrocredits : Option Nat) (noncesArg : Option (List String)) :
    Except String (List Rec) :=
  let nonces := noncesArg.getD []
  if startHeight < 0 then
    .error "Start height must be greater than or equal to 0"
  else
    match env.latestHeight with
    | .error _ => .error "Error fetching latest block height."
    | .ok latestHeight =>
      let endH : Int :=
        match endHeight with
        | some e => if e ≤ latestHeight then e else latestHeight
        | none => latestHeight
      if endH < startHeight then
        .error "Start height must be less than or equal to end height."
      else
        .ok (findLoop env startHeight amounts maxMicrocredits nonces endH 0 ⟨[], 0⟩)

/-- Total microcredits of a list of records. -/
def sumMicro (l : List Rec) : Nat := (l.map Rec.microcredits).sum

/-- Property of every record pushed into the result array by
processOutput: it is owned, has a nonce outside the exclusion list, and a
serial number whose spent-oracle lookup failed. -/
def PushedOK (env : NetEnv) (nonces : List String) (r : Rec) : Prop :=
  r.owned = true ∧ r.nonce ∉ nonces ∧ env.spent r.serial = false

/-- Default record used with List.getLastD. -/
def defaultRec : Rec := ⟨false, "", "", 0⟩

/-- Invariant of the scan state while a cumulative budget mx is active:
the running counter equals the total of the accumulated records, and the
scan has not yet reached the budget (otherwise it would already have
returned). -/
def BudgetInv (mx : Nat) (st : ScanState) : Prop :=
  st.totalRecordValue = sumMicro st.records ∧
    (st.records = [] ∨ sumMicro st.records < mx)

/-- Shape of every early-returned record list under a budget: the records
accumulated before the last acceptance stayed under the budget. -/
def BudgetErr (mx : Nat) (l : List Rec) : Prop :=
  ∃ pre rec, l = pre ++ [rec] ∧ (pre = [] ∨ sumMicro pre < mx)

/-- Conclusion of the budget claim: every proper non-empty truncation of
the result stays strictly under the budget, and the total exceeds the
budget by at most the last accepted record. -/
def BudgetRes (mx : Nat) (recs : List Rec) : Prop :=
  (∀ n, n + 1 < recs.length → sumMicro (recs.take (n + 1)) < mx) ∧
    sumMicro recs ≤ mx + (recs.getLastD defaultRec).microcredits

/-- Sample record for concrete evaluations: owned, never reported spent,
worth 1500 microcredits. -/
def sampleRec : Rec := ⟨true, "nonce1", "serial1", 1500⟩

/-- Sample block holding one execute transaction of credits.aleo with one
record output. -/
def sampleBlock : Block :=
  ⟨some [⟨"execute", ⟨some ⟨some [⟨"credits.aleo", some [⟨"record", "ct1"⟩]⟩]⟩⟩⟩]⟩

/-- Sample single-record ledger environment. -/
def sampleEnv : NetEnv :=
  { latestHeight := .ok 100
    blocks := fun _ _ => .ok [sampleBlock]
    parseRecord := fun s => if s = "ct1" then some sampleRec else none
    spent := fun _ => false }

/-- First record of the two-record ledger: 150 microcredits. -/
def c2RecA : Rec := ⟨true, "nonceA", "serialA", 150⟩

/-- Second record of the two-record ledger: 150 microcredits. -/
def c2RecB : Rec := ⟨true, "nonceB", "serialB", 150⟩

/-- Block with two owned, unspent record outputs of 150 microcredits each
in a single credits.aleo execute transaction. -/
def c2Block : Block :=
  ⟨some [⟨"execute", ⟨some ⟨some [⟨"credits.aleo",
    some [⟨"record", "ctA"⟩, ⟨"record", "ctB"⟩]⟩]⟩⟩⟩]⟩

/-- Two-record ledger environment. -/
def c2Env : NetEnv :=
  { latestHeight := .ok 40
    blocks := fun _ _ => .ok [c2Block]
    parseRecord := fun s =>
      if s = "ctA" then some c2RecA
      else if s = "ctB" then some c2RecB
      else none
    spent := fun _ => false }

/-- Environment whose block-range fetch always fails. -/
def failEnv : NetEnv :=
  { latestHeight := .ok 1000
    blocks := fun _ _ => .error ()
    parseRecord := fun _ => none
    spent := fun _ => false }

/-! Key resolution engine (AleoKeyProvider).  Proving and verifying keys
are modelled by their serialized byte arrays (List Nat); the wasm calls
fromBytes and toBytes are byte-level inverses, so cached values and key
objects coincide in the model. -/

/-- Lookup on the in-memory cache (a Map from strings to byte pairs). -/
def mapGet (m : List (String × (List Nat × List Nat))) (k : String) :
    Option (List Nat × List Nat) :=
  (m.find? (fun p => p.1 == k)).map Prod.snd

/-- Insertion into the cache, overwriting any previous binding of k. -/
def mapSet (m : List (String × (List Nat × List Nat))) (k : String)
    (v : List Nat × List Nat) : List (String × (List Nat × List Nat)) :=
  (k, v) :: m.filter (fun p => p.1 != k)

/-- State of AleoKeyProvider: cacheOption is the cache-enable flag, cache
the in-memory key cache. -/
structure AleoKeyProvider where
  cacheOption : Bool
  cache : List (String × (List Nat × List Nat))
deriving DecidableEq, Repr

/-- Network environment of the key provider: fetchBytes proverUrl and
getVerifyingKey verifierUrl fetch and deserialize the two keys; an error
models a thrown network or decoding error. -/
structure KeyFetchEnv where
  fetchBytes : String → Except Unit (List Nat)
  getVerifyingKey : String → Except Unit (List Nat)

/-- Failure modes of key resolution.  notFound is the returned value
Error("Key not found in cache."); invalidParams is the thrown
invalid-search-parameters error of functionKeys; fetchError is the error
thrown by fetchKeys when a fetch or decode fails. -/
inductive KeyError
  | notFound
  | invalidParams
  | fetchError
deriving DecidableEq, Repr

/-- Method getKeys(keyId) of AleoKeyProvider: return the cached pair or a
key-not-found error. -/
def getKeys (kp : AleoKeyProvider) (keyId : String) :
    Except KeyError (List Nat × List Nat) :=
  match mapGet kp.cache keyId with
  | some (provingKeyBytes, verifyingKeyBytes) => .ok (provingKeyBytes, verifyingKeyBytes)
  | none => .error .notFound

/-- Method fetchKeys(proverUrl, verifierUrl, cacheKey) of AleoKeyProvider.
With caching enabled the cache is first consulted under the cache key
defaulted to the prover url (the guard (!cacheKey) treats the empty string
as falsy) and a miss fetches then stores; with caching disabled both keys
are always fetched.  Returns the possibly updated provider together with
the result. -/
def fetchKeys (env : KeyFetchEnv) (kp : AleoKeyProvider)
    (proverUrl verifierUrl : String) (cacheKey : Option String) :
    AleoKeyProvider × Except KeyError (List Nat × List Nat) :=
  if kp.cacheOption then
    let ck := match cacheKey with
      | some k => if k = "" then proverUrl else k
      | none => proverUrl
    match mapGet kp.cache ck with
    | some (provingKeyBytes, verifyingKeyBytes) =>
      (kp, .ok (provingKeyBytes, verifyingKeyBytes))
    | none =>
      match env.fetchBytes proverUrl with
      | .error _ => (kp, .error .fetchError)
      | .ok provingKey =>
        match env.getVerifyingKey verifierUrl with
        | .error _ => (kp, .error .fetchError)
        | .ok verifyingKey =>
          ({ kp with cache := mapSet kp.cache ck (provingKey, verifyingKey) },
           .ok (provingKey, verifyingKey))
  else
    match env.fetchBytes proverUrl with
    | .error _ => (kp, .error .fetchError)
    | .ok provingKey =>
      match env.getVerifyingKey verifierUrl with
      | .error _ => (kp, .error .fetchError)
      | .ok verifyingKey => (kp, .ok (provingKey, verifyingKey))

/-- Key search parameters: each field is set only when present with string
type in the params object. -/
structure KeySearchParams where
  proverUri : Option String
  verifierUri : Option String
  cacheKey : Option String
deriving DecidableEq, Repr

/-- JavaScript truthiness of an optional string (undefined and the empty
string are falsy). -/
def truthy : Option String → Bool
  | some s => s ≠ ""
  | none => false

/-- Method functionKeys(params) of AleoKeyProvider: fetch when both URIs
are present, else look up the cache under the cache key, else fail with
the invalid-parameters error. -/
def functionKeys (env : KeyFetchEnv) (kp : AleoKeyProvider)
    (params : Option KeySearchParams) :
    AleoKeyProvider × Except KeyError (List Nat × List Nat) :=
  match params with
  | some ps =>
    if truthy ps.proverUri && truthy ps.verifierUri then
      fetchKeys env kp (ps.proverUri.getD "") (ps.verifierUri.getD "") ps.cacheKey
    else if truthy ps.cacheKey then
      (kp, getKeys kp (ps.cacheKey.getD ""))
    else (kp, .error .invalidParams)
  | none => (kp, .error .invalidParams)

/-- Sample key-fetch environment. -/
def keyEnv0 : KeyFetchEnv := ⟨fun _ => .ok [1], fun _ => .ok [2]⟩

/-- Sample key provider with caching enabled and an empty cache. -/
def kp0 : AleoKeyProvider := ⟨true, []⟩

/-! Transfer-type vocabulary and transaction orchestration. -/

def PRIVATE_TRANSFER_TYPES : List String :=
  ["transfer_private", "private", "transferPrivate",
   "transfer_private_to_public", "privateToPublic", "transferPrivateToPublic"]

def VALID_TRANSFER_TYPES : List String :=
  ["transfer_private", "private", "transferPrivate",
   "transfer_private_to_public", "privateToPublic", "transferPrivateToPublic",
   "transfer_public", "public", "transferPublic",
   "transfer_public_to_private", "publicToPrivate", "transferPublicToPrivate"]

def PRIVATE_TRANSFER : List String :=
  ["private", "transfer_private", "transferPrivate"]

def PRIVATE_TO_PUBLIC_TRANSFER : List String :=
  ["private_to_public", "privateToPublic", "transfer_private_to_public",
   "transferPrivateToPublic"]

def PUBLIC_TRANSFER : List String :=
  ["public", "transfer_public", "transferPublic"]

def PUBLIC_TO_PRIVATE_TRANSFER : List String :=
  ["public_to_private", "publicToPrivate", "transfer_public_to_private",
   "transferPublicToPrivate"]

/-- Predicate requiresAmountRecord(transferType). -/
def requiresAmountRecord (transferType : String) : Bool :=
  PRIVATE_TRANSFER_TYPES.contains transferType

/-- Function validateTransferType(transferType): return the string
unchanged when it belongs to the vocabulary, otherwise throw. -/
def validateTransferType (transferType : String) : Except String String :=
  if VALID_TRANSFER_TYPES.contains transferType then .ok transferType
  else .error ("Invalid transfer type " ++ transferType)

/-- Canonical transfer kinds. -/
inductive TransferKind
  | privateTransfer
  | privateToPublic
  | publicTransfer
  | publicToPrivate
deriving DecidableEq, Repr

/-- Classification performed by the method transferKeys(visibility) of
AleoKeyProvider: which of the four credits.aleo transfer functions the
alias selects keys for (the fetch itself is the network layer). -/
def transferKeyKind (visibility : String) : Except String TransferKind :=
  if PRIVATE_TRANSFER.contains visibility then .ok .privateTransfer
  else if PRIVATE_TO_PUBLIC_TRANSFER.contains visibility then .ok .privateToPublic
  else if PUBLIC_TRANSFER.contains visibility then .ok .publicTransfer
  else if PUBLIC_TO_PRIVATE_TRANSFER.contains visibility then .ok .publicToPrivate
  else .error "Invalid visibility type"

/-- Record search parameters.  The field startHeight is some iff present
in the params object; endHeight is some iff present and numeric (the
source guards both assignments with a typeof test on endHeight). -/
structure RecordSearchParams where
  startHeight : Option Int
  endHeight : Option Int
deriving DecidableEq, Repr

/-- Record provider as seen by the orchestrator: the injected interface
call findCreditsRecord(amount, unspent, nonces, params). -/
structure RecordProviderOracle where
  findCreditsRecord : Nat → Bool → List String → Option RecordSearchParams →
    Except String Rec

/-- Wasm parser RecordPlaintext.fromString; none means it threw. -/
structure ParseEnv where
  parseRecordStr : String → Option Rec

/-- Method getCreditsRecord(amount, nonces, record, params) of
ProgramManager: use the explicit record when it is a RecordPlaintext
instance or a parseable string, otherwise fall back to the record
provider. -/
def getCreditsRecord (penv : ParseEnv) (rp : RecordProviderOracle)
    (amount : Nat) (nonces : List String) (record : Option (Rec ⊕ String))
    (params : Option RecordSearchParams) : Except String Rec :=
  let fallback : Except String Rec :=
    match rp.findCreditsRecord amount true nonces params with
    | .ok r => .ok r
    | .error e => .error ("Error finding fee record. Record finder response: " ++ e)
  match record with
  | some (Sum.inl r) => .ok r
  | some (Sum.inr s) =>
    match penv.parseRecordStr s with
    | some r => .ok r
    | none => fallback
  | none => fallback

/-- Amount and fee record resolution block of buildTransferTransaction:
when the (validated) transfer type requires an amount record it is
resolved by getCreditsRecord(fee, [], amountRecord, recordSearchParams)
and its nonce is pushed onto the exclusion list used for the fee-record
search; otherwise the amount record is set to undefined. -/
def resolveTransferRecords (penv : ParseEnv) (rp : RecordProviderOracle)
    (fee : Nat) (privateFee : Bool) (transferType : String)
    (recordSearchParams : Option RecordSearchParams)
    (amountRecord feeRecord : Option (Rec ⊕ String)) :
    Except String (Option Rec × Option Rec) :=
  if requiresAmountRecord transferType then
    match getCreditsRecord penv rp fee [] amountRecord recordSearchParams with
    | .error e => .error e
    | .ok ar =>
      let nonces := [ar.nonce]
      if privateFee then
        match getCreditsRecord penv rp fee nonces feeRecord recordSearchParams with
        | .error e => .error e
        | .ok fr => .ok (some ar, some fr)
      else .ok (some ar, none)
  else
    if privateFee then
      match getCreditsRecord penv rp fee [] feeRecord recordSearchParams with
      | .error e => .error e
      | .ok fr => .ok (none, some fr)
    else .ok (none, none)

/-- Key oracles used by buildTransferTransaction: feeKeys true and false
are the methods feePrivateKeys() and feePublicKeys(), and transferKeys is
the injected call transferKeys(transferType) on the key provider. -/
structure TransferKeyEnv where
  feeKeys : Bool → Except String (List Nat × List Nat)
  transferKeys : String → Except String (List Nat × List Nat)

/-- Fully resolved parameter bundle handed to the external engine. -/
structure TransferBundle where
  transferType : String
  amountRecord : Option Rec
  feeRecord : Option Rec
  amount : Nat
  recipient : String
  fee : Nat
deriving DecidableEq, Repr

/-- Method buildTransferTransaction of ProgramManager: validate the
transfer type, resolve fee and transfer keys, resolve the amount and fee
records, then hand the bundle to the external engine (the private-key
resolution is the account layer). -/
def buildTransferTransaction (penv : ParseEnv) (rp : RecordProviderOracle)
    (kenv : TransferKeyEnv) (amount : Nat) (recipient : String)
    (transferType : String) (fee : Nat) (privateFee : Bool)
    (recordSearchParams : Option RecordSearchParams)
    (amountRecord feeRecord : Option (Rec ⊕ String)) :
    Except String TransferBundle :=
  match validateTransferType transferType with
  | .error e => .error e
  | .ok tt =>
    match kenv.feeKeys privateFee with
    | .error e => .error ("Error finding fee keys. Key finder response: " ++ e)
    | .ok _ =>
      match kenv.transferKeys tt with
      | .error e => .error ("Error finding fee keys. Key finder response: " ++ e)
      | .ok _ =>
        match resolveTransferRecords penv rp fee privateFee tt
            recordSearchParams amountRecord feeRecord with
        | .error e => .error e
        | .ok (ar, fr) => .ok ⟨tt, ar, fr, amount, recipient, fee⟩

/-- Method findCreditsRecords(microcredits, unspent, nonces,
searchParameters) of NetworkRecordProvider: the caller-supplied
startHeight is read only when the parameters carry a numeric endHeight
(the guard of the startHeight assignment tests typeof of endHeight); an
absent or zero end height is replaced by the current chain height. -/
def findCreditsRecords (env : NetEnv) (microcredits : List Nat)
    (unspent : Bool) (nonces : List String)
    (searchParameters : Option RecordSearchParams) : Except String (List Rec) :=
  let startHeight : Int :=
    match searchParameters with
    | some sp =>
      if sp.startHeight.isSome && sp.endHeight.isSome then sp.startHeight.getD 0
      else 0
    | none => 0
  let endHeight : Int :=
    match searchParameters with
    | some sp => sp.endHeight.getD 0
    | none => 0
  match (if endHeight = 0 then
           match env.latestHeight with
           | .ok e => .ok e
           | .error _ => .error "Unable to get current block height from the network"
         else .ok endHeight : Except String Int) with
  | .error e => .error e
  | .ok endHeight =>
    if startHeight ≥ endHeight then
      .error "Start height must be less than end height"
    else
      findUnspentRecords env startHeight (some endHeight) (some microcredits)
        none (some nonces)

/-! Execution transaction building (ProgramManager). -/

/-- Bundle ExecuteOptions destructured at the top of
buildExecutionTransaction. -/
structure ExecuteOptions where
  programName : String
  functionName : String
  fee : Nat
  privateFee : Bool
  inputs : List String
  recordSearchParams : Option RecordSearchParams
  keySearchParams : Option KeySearchParams
  feeRecord : Option (Rec ⊕ String)
  provingKey : Option (List Nat)
  verifyingKey : Option (List Nat)
  program : Option String
  imports : Option (List (String × String))
  privateKey : Option String

/-- Collaborators of ProgramManager: the network client, the injected key
provider (functionKeys, feePrivateKeys, feePublicKeys), and the wasm
Program parser (numImports p is the length of the import list of the
parsed program). -/
structure ExecEnv where
  getProgram : String → Except String String
  functionKeys : Option KeySearchParams → Except String (List Nat × List Nat)
  feePrivateKeys : Except String (List Nat × List Nat)
  feePublicKeys : Except String (List Nat × List Nat)
  numImports : String → Nat
  getProgramImports : String → Except String (List (String × String))

/-- Fully resolved parameter set handed to the external engine by
buildExecutionTransaction. -/
structure ExecBundle where
  privateKey : String
  program : String
  functionName : String
  inputs : List String
  fee : Nat
  feeRecord : Option Rec
  imports : Option (List (String × String))
  provingKey : Option (List Nat)
  verifyingKey : Option (List Nat)
  feeProvingKey : List Nat
  feeVerifyingKey : List Nat

/-- Method buildExecutionTransaction(options) of ProgramManager: resolve
program, signer key, fee record, fee keys, function keys (non-fatally)
and imports, then delegate to the external engine.  The account argument
is the configured account private key of the manager. -/
def buildExecutionTransaction (env : ExecEnv) (penv : ParseEnv)
    (rp : RecordProviderOracle) (account : Option String)
    (options : ExecuteOptions) : Except String ExecBundle :=
  match (match options.program with
         | some p => .ok p
         | none =>
           match env.getProgram options.programName with
           | .ok p => .ok p
           | .error _ =>
             .error ("Error finding " ++ options.programName ++ ".") :
         Except String String) with
  | .error e => .error e
  | .ok program =>
    match (match options.privateKey with
           | some k => some k
           | none => account) with
    | none => .error "No private key provided and no private key set in the ProgramManager"
    | some executionPrivateKey =>
      match (if options.privateFee then
               match getCreditsRecord penv rp options.fee [] options.feeRecord
                   options.recordSearchParams with
               | .ok r => .ok (some r)
               | .error _ => .error "Error finding fee record."
             else .ok none : Except String (Option Rec)) with
      | .error e => .error e
      | .ok feeRecord =>
        match (if options.privateFee then env.feePrivateKeys else env.feePublicKeys) with
        | .error _ => .error "Error finding fee keys."
        | .ok feeKeys =>
          -- when either explicit key is missing, try functionKeys, and on
          -- failure only log and proceed with the keys left as they were
          let keys : Option (List Nat) × Option (List Nat) :=
            if options.provingKey.isSome && options.verifyingKey.isSome then
              (options.provingKey, options.verifyingKey)
            else
              match env.functionKeys options.keySearchParams with
              | .ok (p, v) => (some p, some v)
              | .error _ => (options.provingKey, options.verifyingKey)
          match (if 0 < env.numImports program && options.imports.isNone then
                   match env.getProgramImports options.programName with
                   | .ok im => .ok (some im)
                   | .error _ => .error "Error finding program imports."
                 else .ok options.imports : Except String (Option (List (String × String)))) with
          | .error e => .error e
          | .ok imports =>
            .ok ⟨executionPrivateKey, program, options.functionName, options.inputs,
              options.fee, feeRecord, imports, keys.1, keys.2, feeKeys.1, feeKeys.2⟩

/-- Parameter set handed to executeFunctionOffline by run. -/
structure RunBundle where
  privateKey : String
  program : String
  functionName : String
  inputs : List String
  proveExecution : Bool
  imports : Option (List (String × String))
  provingKey : Option (List Nat)
  verifyingKey : Option (List Nat)

/-- Method run(program, function_name, inputs, proveExecution, imports,
keySearchParams, provingKey, verifyingKey, privateKey) of ProgramManager:
resolve the signer key, then the function keys (non-fatally), and run
offline. -/
def run (env : ExecEnv) (account : Option String) (program functionName : String)
    (inputs : List String) (proveExecution : Bool)
    (imports : Option (List (String × String)))
    (keySearchParams : Option KeySearchParams)
    (provingKey verifyingKey : Option (List Nat))
    (privateKey : Option String) : Except String RunBundle :=
  match (match privateKey with
         | some k => some k
         | none => account) with
  | none => .error "No private key provided and no private key set in the ProgramManager"
  | some executionPrivateKey =>
    let keys : Option (List Nat) × Option (List Nat) :=
      if provingKey.isSome && verifyingKey.isSome then (provingKey, verifyingKey)
      else
        match env.functionKeys keySearchParams with
        | .ok (p, v) => (some p, some v)
        | .error _ => (provingKey, verifyingKey)
    .ok ⟨executionPrivateKey, program, functionName, inputs, proveExecution,
      imports, keys.1, keys.2⟩

/-- Sample execution environment whose functionKeys call fails. -/
def execEnv0 : ExecEnv :=
  ⟨fun _ => .error "", fun _ => .error "nokeys", .error "", .ok ([3], [4]),
   fun _ => 0, fun _ => .error ""⟩

/-- Sample execute options: explicit program and private key, public fee,
no explicit function keys. -/
def execOpts0 : ExecuteOptions :=
  ⟨"prog.aleo", "main", 10, false, [], none, none, none, none, none,
   some "program prog.aleo;", none, some "sk"⟩

end AleoSdk

namespace AleoSdk

/-! Helper lemmas for the record-discovery engine. -/

@[simp] theorem sumMicro_nil : sumMicro [] = 0 := rfl

@[simp] theorem sumMicro_cons (r : Rec) (l : List Rec) :
    sumMicro (r :: l) = r.microcredits + sumMicro l := by
  simp [sumMicro]

@[simp] theorem sumMicro_append (a b : List Rec) :
    sumMicro (a ++ b) = sumMicro a + sumMicro b := by
  simp [sumMicro]

theorem sumMicro_take_le (n : Nat) (l : List Rec) :
    sumMicro (l.take n) ≤ sumMicro l := by
  induction l generalizing n with
  | nil => simp
  | cons r t ih =>
    cases n with
    | zero => simp
    | succ m =>
      simp only [List.take_succ_cons, sumMicro_cons]
      have := ih m
      omega

theorem sumMicro_getLastD (pre : List Rec) (r : Rec) :
    (pre ++ [r]).getLastD defaultRec = r := by
  simp [List.getLastD_eq_getLast?, List.getLast?_concat]

theorem processOutput_ok_mem {env am mx ns st o st'}
    (h : processOutput env am mx ns st o = .ok st') :
    ∀ r ∈ st'.records, r ∈ st.records ∨ PushedOK env ns r := by
  intro r hr
  unfold processOutput at h
  repeat' split at h
  all_goals simp_all [PushedOK]
  all_goals repeat' split at h
  all_goals (try cases h)
  all_goals (try simp_all)
  all_goals aesop

theorem processOutput_error_mem {env am mx ns st o l}
    (h : processOutput env am mx ns st o = .error l) :
    ∀ r ∈ l, r ∈ st.records ∨ PushedOK env ns r := by
  intro r hr
  unfold processOutput at h
  repeat' split at h
  all_goals simp_all [PushedOK]
  all_goals repeat' split at h
  all_goals (try cases h)
  all_goals (try simp_all)
  all_goals aesop

/-- Lifting of a per-element invariant and early-return property through
foldE. -/
theorem foldE_inv {α : Type} {f : ScanState → α → Except (List Rec) ScanState}
    {I : ScanState → Prop} {E : List Rec → Prop}
    (hok : ∀ st a st', I st → f st a = .ok st' → I st')
    (herr : ∀ st a l, I st → f st a = .error l → E l) :
    ∀ (xs : List α) (st : ScanState), I st →
      (∀ st', foldE f st xs = .ok st' → I st') ∧
      (∀ l, foldE f st xs = .error l → E l) := by
  intro xs
  induction xs with
  | nil =>
    intro st hI
    constructor <;> intro x h <;> simp only [foldE] at h
    · cases h; exact hI
    · cases h
  | cons a xs ih =>
    intro st hI
    rcases hfa : f st a with l | st1
    · constructor <;> intro x h <;> simp only [foldE, hfa] at h
      · cases h
      · cases h; exact herr st a _ hI hfa
    · have hI1 : I st1 := hok st a st1 hI hfa
      constructor <;> intro x h <;> simp only [foldE, hfa] at h
      · exact (ih st1 hI1).1 x h
      · exact (ih st1 hI1).2 x h

/-- Lifting of the processOutput invariant through the three nested loops
of a block (transactions, transitions, outputs). -/
theorem processBlock_inv {env : NetEnv} {am : Option (List Nat)} {mx : Option Nat}
    {ns : List String} {I : ScanState → Prop} {E : List Rec → Prop}
    (hok : ∀ st o st', I st → processOutput env am mx ns st o = .ok st' → I st')
    (herr : ∀ st o l, I st → processOutput env am mx ns st o = .error l → E l) :
    (∀ st b st', I st → processBlock env am mx ns st b = .ok st' → I st') ∧
    (∀ st b l, I st → processBlock env am mx ns st b = .error l → E l) := by
  have htr : ∀ st t, I st →
      (∀ st', processTransition env am mx ns st t = .ok st' → I st') ∧
      (∀ l, processTransition env am mx ns st t = .error l → E l) := by
    intro st t hI
    unfold processTransition
    constructor <;> intro x h <;> split at h
    · cases h; exact hI
    · split at h
      · cases h; exact hI
      · exact (foldE_inv hok herr _ st hI).1 x h
    · cases h
    · split at h
      · cases h
      · exact (foldE_inv hok herr _ st hI).2 x h
  have hct : ∀ st ct, I st →
      (∀ st', processConfirmedTransaction env am mx ns st ct = .ok st' → I st') ∧
      (∀ l, processConfirmedTransaction env am mx ns st ct = .error l → E l) := by
    intro st ct hI
    unfold processConfirmedTransaction
    constructor <;> intro x h <;> split at h
    · split at h
      · cases h; exact hI
      · split at h
        · cases h; exact hI
        · exact (foldE_inv (fun st a st' hI h => (htr st a hI).1 st' h)
            (fun st a l hI h => (htr st a hI).2 l h) _ st hI).1 x h
    · cases h; exact hI
    · split at h
      · cases h
      · split at h
        · cases h
        · exact (foldE_inv (fun st a st' hI h => (htr st a hI).1 st' h)
            (fun st a l hI h => (htr st a hI).2 l h) _ st hI).2 x h
    · cases h
  constructor <;> intro st b x hI h <;> unfold processBlock at h <;> split at h
  · cases h; exact hI
  · exact (foldE_inv (fun st a st' hI h => (hct st a hI).1 st' h)
      (fun st a l hI h => (hct st a hI).2 l h) _ st hI).1 x h
  · cases h
  · exact (foldE_inv (fun st a st' hI h => (hct st a hI).1 st' h)
      (fun st a l hI h => (hct st a hI).2 l h) _ st hI).2 x h

theorem findLoop_eq_stop {env : NetEnv} {s : Int} {am : Option (List Nat)}
    {mx : Option Nat} {ns : List String} {endH : Int} {failures : Nat} {st : ScanState}
    (h : ¬ s < endH) :
    findLoop env s am mx ns endH failures st = st.records := by
  rw [findLoop]
  simp [h]

theorem findLoop_eq_ok {env : NetEnv} {s : Int} {am : Option (List Nat)}
    {mx : Option Nat} {ns : List String} {endH : Int} {failures : Nat} {st : ScanState}
    {blks : List Block}
    (h : s < endH)
    (hb : env.blocks (chunkStart s endH) endH = .ok blks) :
    findLoop env s am mx ns endH failures st =
      (match foldE (processBlock env am mx ns) st blks with
       | .error r => r
       | .ok st' => findLoop env s am mx ns (chunkStart s endH) failures st') := by
  rw [findLoop]
  simp only [dif_pos h, hb]

theorem findLoop_eq_err {env : NetEnv} {s : Int} {am : Option (List Nat)}
    {mx : Option Nat} {ns : List String} {endH : Int} {failures : Nat} {st : ScanState}
    {u : Unit}
    (h : s < endH)
    (hb : env.blocks (chunkStart s endH) endH = .error u) :
    findLoop env s am mx ns endH failures st =
      (if 10 < failures + 1 then st.records
       else findLoop env s am mx ns endH (failures + 1) st) := by
  rw [findLoop]
  simp only [dif_pos h, hb]
  split <;> simp [*]

/-- Lifting of an invariant I on scan states and a property E of early
returns to the full scan loop: any result satisfies R. -/
theorem findLoop_inv {env : NetEnv} {s : Int} {am : Option (List Nat)}
    {mx : Option Nat} {ns : List String} {I : ScanState → Prop} {E : List Rec → Prop}
    {R : List Rec → Prop}
    (hok : ∀ st o st', I st → processOutput env am mx ns st o = .ok st' → I st')
    (herr : ∀ st o l, I st → processOutput env am mx ns st o = .error l → E l)
    (hIR : ∀ st, I st → R st.records)
    (hER : ∀ l, E l → R l) :
    ∀ (endH : Int) (failures : Nat) (st : ScanState), I st →
      R (findLoop env s am mx ns endH failures st) := by
  intro endH failures st
  induction endH, failures, st using findLoop.induct env s am mx ns with
  | case1 endH failures st hlt start blks hb r hfold =>
    intro hI
    rw [findLoop_eq_ok hlt hb, hfold]
    exact hER r ((foldE_inv (fun st a st' hI h => (processBlock_inv hok herr).1 st a st' hI h)
      (fun st a l hI h => (processBlock_inv hok herr).2 st a l hI h) blks st hI).2 r hfold)
  | case2 endH failures st hlt start blks hb st' hfold ih =>
    intro hI
    rw [findLoop_eq_ok hlt hb, hfold]
    exact ih ((foldE_inv (fun st a st' hI h => (processBlock_inv hok herr).1 st a st' hI h)
      (fun st a l hI h => (processBlock_inv hok herr).2 st a l hI h) blks st hI).1 st' hfold)
  | case3 endH failures st hlt start u hb hf =>
    intro hI
    rw [findLoop_eq_err hlt hb, if_pos hf]
    exact hIR st hI
  | case4 endH failures st hlt start u hb hf ih =>
    intro hI
    rw [findLoop_eq_err hlt hb, if_neg hf]
    exact ih hI
  | case5 endH failures st hlt =>
    intro hI
    rw [findLoop_eq_stop hlt]
    exact hIR st hI

theorem processOutput_budget_ok {env am mx ns st o st'}
    (hB : BudgetInv mx st)
    (h : processOutput env am (some mx) ns st o = .ok st') :
    BudgetInv mx st' := by
  obtain ⟨htot, hlt⟩ := hB
  unfold processOutput at h
  repeat' split at h
  all_goals (try cases h)
  all_goals (try simp_all [BudgetInv])
  all_goals repeat' split at h
  all_goals (try cases h)
  all_goals simp_all [BudgetInv]

theorem processOutput_budget_err {env am mx ns st o l}
    (hB : BudgetInv mx st)
    (h : processOutput env am (some mx) ns st o = .error l) :
    BudgetErr mx l := by
  obtain ⟨htot, hlt⟩ := hB
  unfold processOutput at h
  repeat' split at h
  all_goals (try cases h)
  all_goals (try simp_all)
  all_goals repeat' split at h
  all_goals (try cases h)
  all_goals (try simp_all)
  all_goals exact ⟨st.records, _, rfl, hlt⟩

theorem budgetRes_of_inv {mx : Nat} {st : ScanState} (hB : BudgetInv mx st) :
    BudgetRes mx st.records := by
  obtain ⟨-, hlt⟩ := hB
  rcases hlt with hnil | hlt
  · simp [BudgetRes, hnil, defaultRec]
  · constructor
    · intro n hn
      exact lt_of_le_of_lt (sumMicro_take_le _ _) hlt
    · have : sumMicro st.records ≤ mx := le_of_lt hlt
      omega

theorem budgetRes_of_err {mx : Nat} {l : List Rec} (hE : BudgetErr mx l) :
    BudgetRes mx l := by
  obtain ⟨pre, rec, rfl, hpre⟩ := hE
  constructor
  · intro n hn
    have hlen : n + 1 ≤ pre.length := by
      simp [List.length_append] at hn
      omega
    rw [List.take_append_of_le_length hlen]
    have htk := sumMicro_take_le (n + 1) pre
    rcases hpre with rfl | hpre
    · simp at hlen
    · omega
  · rw [sumMicro_getLastD]
    simp only [sumMicro_append, sumMicro_cons, sumMicro_nil]
    rcases hpre with rfl | hpre
    · simp
    · omega

/-- Successful findUnspentRecords calls return the value of the scan loop
started at some resolved end height, with empty initial state. -/
theorem findUnspentRecords_ok_elim {env : NetEnv} {s : Int} {e? : Option Int}
    {am : Option (List Nat)} {mx : Option Nat} {ns? : Option (List String)}
    {recs : List Rec}
    (h : findUnspentRecords env s e? am mx ns? = .ok recs) :
    ∃ endH, recs = findLoop env s am mx (ns?.getD []) endH 0 ⟨[], 0⟩ := by
  unfold findUnspentRecords at h
  repeat' split at h
  all_goals (try exact Except.noConfusion h)
  all_goals (dsimp only [] at h)
  all_goals repeat' split at h
  all_goals (try exact Except.noConfusion h)
  all_goals (cases h; exact ⟨_, rfl⟩)

/-- Every record returned by findUnspentRecords was pushed by the scan:
it is owned, its nonce avoids the exclusion list, and its spent-oracle
lookup failed. -/
theorem findUnspentRecords_pushedOK {env : NetEnv} {s : Int} {e? : Option Int}
    {am : Option (List Nat)} {mx : Option Nat} {ns? : Option (List String)}
    {recs : List Rec}
    (h : findUnspentRecords env s e? am mx ns? = .ok recs) :
    ∀ r ∈ recs, PushedOK env (ns?.getD []) r := by
  obtain ⟨endH, rfl⟩ := findUnspentRecords_ok_elim h
  exact findLoop_inv
    (I := fun st => ∀ r ∈ st.records, PushedOK env (ns?.getD []) r)
    (E := fun l => ∀ r ∈ l, PushedOK env (ns?.getD []) r)
    (R := fun l => ∀ r ∈ l, PushedOK env (ns?.getD []) r)
    (fun st o st' hI hstep r hr => (processOutput_ok_mem hstep r hr).elim (hI r) id)
    (fun st o l hI hstep r hr => (processOutput_error_mem hstep r hr).elim (hI r) id)
    (fun st hI => hI) (fun l hE => hE) endH 0 ⟨[], 0⟩ (by simp)

end AleoSdk

namespace AleoSdk

/-! Claim theorems for the record-discovery engine. -/

/-- C1: for every successful findUnspentRecords call with
startHeight ≤ endHeight, every returned record is one whose derived
serial number the spent-oracle lookup (getTransitionId) failed to find;
a record whose lookup succeeds is never included. -/
theorem findUnspentRecords_never_returns_spent
    (env : NetEnv) (s e : Int) (am : Option (List Nat)) (mx : Option Nat)
    (ns? : Option (List String)) (recs : List Rec)
    (hse : s ≤ e)
    (h : findUnspentRecords env s (some e) am mx ns? = .ok recs) :
    ∀ r ∈ recs, env.spent r.serial = false :=
  fun r hr => (findUnspentRecords_pushedOK h r hr).2.2

theorem findUnspentRecords_never_returns_spent_witness :
    sampleEnv.spent sampleRec.serial = false :=
  findUnspentRecords_never_returns_spent sampleEnv 0 100 none none none
    [sampleRec, sampleRec] (by norm_num)
    (by simp [findUnspentRecords, findLoop, chunkStart, processBlock,
          processConfirmedTransaction, processTransition, processOutput,
          foldE, sampleEnv, sampleBlock, sampleRec])
    sampleRec (by simp)

/-- C2: behaviour of the code at the failing input.  With target amounts
[100, 200] and two unspent candidate records of 150 microcredits each,
the scan accepts both records, although the second target amount 200 is
not exceeded by the second record: amounts_found is re-initialised to 0
for every candidate, so each record is compared against amounts[0] only,
never against the next unmatched target. -/
theorem findUnspentRecords_amounts_compare_first_target_only :
    findUnspentRecords c2Env 0 (some 40) (some [100, 200]) none none =
      .ok [c2RecA, c2RecB] ∧
    c2RecB.microcredits ≤ 200 := by
  constructor
  · simp [findUnspentRecords, findLoop, chunkStart, processBlock,
      processConfirmedTransaction, processTransition, processOutput,
      foldE, c2Env, c2Block, c2RecA, c2RecB]
  · decide

/-- C3: each failed chunk fetch increments the failure counter and keeps
the range to retry; once more than 10 failures have occurred (that is, on
the 11th failure) the scan aborts and the accumulated records are
returned as a normal, non-error result — concretely, a scan of the range
from 0 to 1000 whose fetches all fail returns ok [] instead of an
error. -/
theorem findUnspentRecords_failure_budget :
    (∀ (env : NetEnv) (s : Int) (am : Option (List Nat)) (mx : Option Nat)
       (ns : List String) (endH : Int) (failures : Nat) (st : ScanState) (u : Unit),
       s < endH →
       env.blocks (chunkStart s endH) endH = .error u →
       (failures + 1 ≤ 10 →
          findLoop env s am mx ns endH failures st =
            findLoop env s am mx ns endH (failures + 1) st) ∧
       (10 < failures + 1 →
          findLoop env s am mx ns endH failures st = st.records)) ∧
    (∀ (env : NetEnv) (am : Option (List Nat)) (mx : Option Nat)
       (ns? : Option (List String)),
       (∀ a b : Int, env.blocks a b = .error ()) →
       env.latestHeight = .ok 1000 →
       findUnspentRecords env 0 (some 1000) am mx ns? = .ok []) := by
  constructor
  · intro env s am mx ns endH failures st u hlt hb
    constructor
    · intro hle
      rw [findLoop_eq_err hlt hb, if_neg (by omega)]
    · intro hgt
      rw [findLoop_eq_err hlt hb, if_pos hgt]
  · intro env am mx ns? hblocks hlatest
    have key : ∀ (k failures : Nat), failures + k = 11 →
        findLoop env 0 am mx (ns?.getD []) 1000 failures ⟨[], 0⟩ = [] := by
      intro k
      induction k with
      | zero =>
        intro failures hf
        rw [findLoop_eq_err (by norm_num) (hblocks _ _), if_pos (by omega)]
      | succ n ih =>
        intro failures hf
        rw [findLoop_eq_err (by norm_num) (hblocks _ _)]
        split
        · rfl
        · exact ih (failures + 1) (by omega)
    unfold findUnspentRecords
    rw [hlatest]
    norm_num
    exact key 11 0 rfl

theorem findUnspentRecords_failure_budget_witness :
    findUnspentRecords failEnv 0 (some 1000) none none (some []) = .ok [] :=
  findUnspentRecords_failure_budget.2 failEnv none none (some [])
    (fun _ _ => rfl) rfl

/-- C5: under a cumulative budget mx the scan returns at the first
crossing of the budget and not before: every proper non-empty truncation
of the result stays strictly under mx, so the total is at most mx plus
the microcredits of the single record whose acceptance first reached the
threshold (the last accepted record). -/
theorem findUnspentRecords_budget_bound
    (env : NetEnv) (s e : Int) (am : Option (List Nat)) (mx : Nat)
    (ns? : Option (List String)) (recs : List Rec)
    (h : findUnspentRecords env s (some e) am (some mx) ns? = .ok recs) :
    (∀ n, n + 1 < recs.length → sumMicro (recs.take (n + 1)) < mx) ∧
    sumMicro recs ≤ mx + (recs.getLastD defaultRec).microcredits := by
  obtain ⟨endH, rfl⟩ := findUnspentRecords_ok_elim h
  exact findLoop_inv (I := BudgetInv mx) (E := BudgetErr mx) (R := BudgetRes mx)
    (fun st o st' hI hstep => processOutput_budget_ok hI hstep)
    (fun st o l hI hstep => processOutput_budget_err hI hstep)
    (fun st hI => budgetRes_of_inv hI)
    (fun l hE => budgetRes_of_err hE) endH 0 ⟨[], 0⟩ ⟨rfl, Or.inl rfl⟩

theorem findUnspentRecords_budget_bound_witness :
    sumMicro [sampleRec, sampleRec] ≤
      2000 + (([sampleRec, sampleRec] : List Rec).getLastD defaultRec).microcredits :=
  (findUnspentRecords_budget_bound sampleEnv 0 100 none 2000 none
    [sampleRec, sampleRec]
    (by simp [findUnspentRecords, findLoop, chunkStart, processBlock,
          processConfirmedTransaction, processTransition, processOutput,
          foldE, sampleEnv, sampleBlock, sampleRec])).2

/-- C6: no returned record has a nonce in the caller-supplied exclusion
list; consequently two successive calls over the same range, where the
second exclusion list contains every nonce returned by the first call,
share no record nonce. -/
theorem findUnspentRecords_respects_exclusions :
    (∀ (env : NetEnv) (s : Int) (e? : Option Int) (am : Option (List Nat))
       (mx : Option Nat) (ns : List String) (recs : List Rec),
       findUnspentRecords env s e? am mx (some ns) = .ok recs →
       ∀ r ∈ recs, r.nonce ∉ ns) ∧
    (∀ (env : NetEnv) (s : Int) (e? : Option Int) (am : Option (List Nat))
       (mx : Option Nat) (ns1 ns2 : List String) (recs1 recs2 : List Rec),
       findUnspentRecords env s e? am mx (some ns1) = .ok recs1 →
       findUnspentRecords env s e? am mx (some ns2) = .ok recs2 →
       (∀ r ∈ recs1, r.nonce ∈ ns2) →
       ∀ r1 ∈ recs1, ∀ r2 ∈ recs2, r1.nonce ≠ r2.nonce) := by
  have base : ∀ (env : NetEnv) (s : Int) (e? : Option Int) (am : Option (List Nat))
      (mx : Option Nat) (ns : List String) (recs : List Rec),
      findUnspentRecords env s e? am mx (some ns) = .ok recs →
      ∀ r ∈ recs, r.nonce ∉ ns :=
    fun env s e? am mx ns recs h r hr => (findUnspentRecords_pushedOK h r hr).2.1
  refine ⟨base, ?_⟩
  intro env s e? am mx ns1 ns2 recs1 recs2 h1 h2 hupd r1 hr1 r2 hr2 heq
  exact (base env s e? am mx ns2 recs2 h2 r2 hr2) (heq ▸ hupd r1 hr1)

theorem findUnspentRecords_respects_exclusions_witness :
    sampleRec.nonce ∉ ["nonceX"] :=
  findUnspentRecords_respects_exclusions.1 sampleEnv 0 (some 100) none none
    ["nonceX"] [sampleRec, sampleRec]
    (by simp [findUnspentRecords, findLoop, chunkStart, processBlock,
          processConfirmedTransaction, processTransition, processOutput,
          foldE, sampleEnv, sampleBlock, sampleRec])
    sampleRec (by simp)

end AleoSdk

namespace AleoSdk

/-! Claim theorems for key resolution. -/

/-- C4: resolution order of functionKeys, first success wins: with both
URIs present it delegates to fetchKeys (which, when caching is enabled,
first checks the cache under the cache key defaulted to the prover URI —
returning a hit — and on a miss fetches then stores); with only a
cacheKey it looks up the in-memory cache, returning the exact cached pair
on a hit (for example for locator "credits.aleo/join") and a
key-not-found error on a miss (for example for "credits.aleo/split");
otherwise it fails with the invalid-search-parameters error. -/
theorem functionKeys_resolution_order :
    (∀ (env : KeyFetchEnv) (kp : AleoKeyProvider) (p v : String) (ck : Option String),
       p ≠ "" → v ≠ "" →
       functionKeys env kp (some ⟨some p, some v, ck⟩) = fetchKeys env kp p v ck) ∧
    (∀ (env : KeyFetchEnv) (kp : AleoKeyProvider) (p v ck : String)
       (pair : List Nat × List Nat),
       kp.cacheOption = true → ck ≠ "" → mapGet kp.cache ck = some pair →
       fetchKeys env kp p v (some ck) = (kp, .ok pair)) ∧
    (∀ (env : KeyFetchEnv) (kp : AleoKeyProvider) (p v : String)
       (pair : List Nat × List Nat),
       kp.cacheOption = true → mapGet kp.cache p = some pair →
       fetchKeys env kp p v none = (kp, .ok pair)) ∧
    (∀ (env : KeyFetchEnv) (kp : AleoKeyProvider) (p v ck : String) (pb vb : List Nat),
       kp.cacheOption = true → ck ≠ "" → mapGet kp.cache ck = none →
       env.fetchBytes p = .ok pb → env.getVerifyingKey v = .ok vb →
       fetchKeys env kp p v (some ck) =
         ({ kp with cache := mapSet kp.cache ck (pb, vb) }, .ok (pb, vb))) ∧
    (∀ (env : KeyFetchEnv) (kp : AleoKeyProvider) (ck : String),
       ck ≠ "" →
       functionKeys env kp (some ⟨none, none, some ck⟩) = (kp, getKeys kp ck)) ∧
    (∀ (pb vb : List Nat) (co : Bool),
       getKeys ⟨co, [("credits.aleo/join", (pb, vb))]⟩ "credits.aleo/join" =
         .ok (pb, vb) ∧
       getKeys ⟨co, [("credits.aleo/join", (pb, vb))]⟩ "credits.aleo/split" =
         .error .notFound) ∧
    (∀ (env : KeyFetchEnv) (kp : AleoKeyProvider),
       functionKeys env kp none = (kp, .error .invalidParams) ∧
       functionKeys env kp (some ⟨none, none, none⟩) = (kp, .error .invalidParams)) := by
  refine ⟨?_, ?_, ?_, ?_, ?_, ?_, ?_⟩
  · intro env kp p v ck hp hv
    simp [functionKeys, truthy, hp, hv]
  · intro env kp p v ck pair hco hck hget
    simp [fetchKeys, hco, hck, hget]
  · intro env kp p v pair hco hget
    simp [fetchKeys, hco, hget]
  · intro env kp p v ck pb vb hco hck hget hfb hvk
    simp [fetchKeys, hco, hck, hget, hfb, hvk]
  · intro env kp ck hck
    simp [functionKeys, truthy, hck]
  · intro pb vb co
    constructor <;> simp [getKeys, mapGet]
  · intro env kp
    constructor <;> simp [functionKeys, truthy]

theorem functionKeys_resolution_order_witness :
    functionKeys keyEnv0 kp0 (some ⟨some "p", some "v", none⟩) =
      fetchKeys keyEnv0 kp0 "p" "v" none :=
  functionKeys_resolution_order.1 keyEnv0 kp0 "p" "v" none
    (by decide) (by decide)

/-! Claim theorems for transfer orchestration. -/

theorem validateTransferType_ok {t tt : String}
    (h : validateTransferType t = .ok tt) :
    tt = t ∧ VALID_TRANSFER_TYPES.contains t = true := by
  unfold validateTransferType at h
  split at h
  · cases h; exact ⟨rfl, by assumption⟩
  · exact Except.noConfusion h

theorem resolveTransferRecords_public_amount_none {penv rp fee pf t params aRec fRec ar fr}
    (hreq : requiresAmountRecord t = false)
    (h : resolveTransferRecords penv rp fee pf t params aRec fRec = .ok (ar, fr)) :
    ar = none := by
  unfold resolveTransferRecords at h
  simp only [hreq, Bool.false_eq_true, if_false] at h
  repeat' split at h
  all_goals (try exact Except.noConfusion h)
  all_goals (cases h; rfl)

theorem resolveTransferRecords_public_fee_ignores_provider
    {penv : ParseEnv} (rp1 rp2 : RecordProviderOracle) {fee t params aRec fRec}
    (hreq : requiresAmountRecord t = false) :
    resolveTransferRecords penv rp1 fee false t params aRec fRec =
      resolveTransferRecords penv rp2 fee false t params aRec fRec := by
  unfold resolveTransferRecords
  simp [hreq]

/-- C7: every accepted alias of a transfer kind classifies to the same
canonical kind ("privateToPublic" and "transfer_private_to_public" both
select the private-to-public keys), strings outside the fixed vocabulary
are rejected, within the vocabulary exactly the private and
private-to-public kinds require an amount record, and
buildTransferTransaction sets the amount record to undefined — and never
consults the record provider for the amount side — for the public and
public-to-private kinds. -/
theorem transferType_classification :
    (validateTransferType "privateToPublic" = .ok "privateToPublic" ∧
     validateTransferType "transfer_private_to_public" =
       .ok "transfer_private_to_public") ∧
    (transferKeyKind "privateToPublic" = .ok .privateToPublic ∧
     transferKeyKind "transfer_private_to_public" = .ok .privateToPublic) ∧
    (requiresAmountRecord "privateToPublic" = true ∧
     requiresAmountRecord "transfer_private_to_public" = true ∧
     requiresAmountRecord "public" = false) ∧
    (∀ t : String, VALID_TRANSFER_TYPES.contains t = false →
       validateTransferType t = .error ("Invalid transfer type " ++ t)) ∧
    (∀ t ∈ VALID_TRANSFER_TYPES, requiresAmountRecord t = true ↔
       (transferKeyKind t = .ok .privateTransfer ∨
        transferKeyKind t = .ok .privateToPublic)) ∧
    (∀ (penv : ParseEnv) (rp : RecordProviderOracle) (kenv : TransferKeyEnv)
       (amount : Nat) (recipient t : String) (fee : Nat) (pf : Bool)
       (params : Option RecordSearchParams) (aRec fRec : Option (Rec ⊕ String))
       (bundle : TransferBundle),
       requiresAmountRecord t = false →
       buildTransferTransaction penv rp kenv amount recipient t fee pf params
         aRec fRec = .ok bundle →
       bundle.amountRecord = none) ∧
    (∀ (penv : ParseEnv) (rp1 rp2 : RecordProviderOracle) (kenv : TransferKeyEnv)
       (amount : Nat) (recipient t : String) (fee : Nat)
       (params : Option RecordSearchParams) (aRec fRec : Option (Rec ⊕ String)),
       requiresAmountRecord t = false →
       buildTransferTransaction penv rp1 kenv amount recipient t fee false params
         aRec fRec =
       buildTransferTransaction penv rp2 kenv amount recipient t fee false params
         aRec fRec) := by
  refine ⟨⟨by rfl, by rfl⟩, ⟨by rfl, by rfl⟩, ⟨by rfl, by rfl, by rfl⟩,
    ?_, ?_, ?_, ?_⟩
  · intro t ht
    unfold validateTransferType
    rw [ht]
    simp
  · intro t ht
    fin_cases ht <;> simp [requiresAmountRecord, transferKeyKind,
      PRIVATE_TRANSFER_TYPES, PRIVATE_TRANSFER, PRIVATE_TO_PUBLIC_TRANSFER,
      PUBLIC_TRANSFER, PUBLIC_TO_PRIVATE_TRANSFER]
  · intro penv rp kenv amount recipient t fee pf params aRec fRec bundle hreq hb
    unfold buildTransferTransaction at hb
    repeat' split at hb
    all_goals (try exact Except.noConfusion hb)
    cases hb
    obtain ⟨rfl, -⟩ := validateTransferType_ok (by assumption)
    exact resolveTransferRecords_public_amount_none hreq (by assumption)
  · intro penv rp1 rp2 kenv amount recipient t fee params aRec fRec hreq
    unfold buildTransferTransaction
    cases hv : validateTransferType t with
    | error e => simp [hv]
    | ok tt =>
      obtain ⟨rfl, -⟩ := validateTransferType_ok hv
      simp only [hv]
      rw [resolveTransferRecords_public_fee_ignores_provider rp1 rp2 hreq]

theorem transferType_classification_witness :
    validateTransferType "bogus" = .error ("Invalid transfer type " ++ "bogus") :=
  transferType_classification.2.2.2.1 "bogus" (by decide)

/-- C9: when a private-input-consuming transfer kind is requested and no
valid explicit amount record is supplied, the amount record is requested
from the record provider with the fee argument as the microcredits search
target (the transfer amount plays no role in record resolution), and the
nonce of the resolved amount record is excluded from the subsequent
fee-record search. -/
theorem transfer_amount_record_uses_fee_target :
    (∀ (penv : ParseEnv) (rp : RecordProviderOracle) (fee : Nat) (t : String)
       (params : Option RecordSearchParams) (feeRec : Option (Rec ⊕ String)) (ar : Rec),
       requiresAmountRecord t = true →
       rp.findCreditsRecord fee true [] params = .ok ar →
       resolveTransferRecords penv rp fee false t params none feeRec =
         .ok (some ar, none)) ∧
    (∀ (penv : ParseEnv) (rp : RecordProviderOracle) (fee : Nat) (t : String)
       (params : Option RecordSearchParams) (feeRec : Option (Rec ⊕ String)) (ar : Rec),
       requiresAmountRecord t = true →
       rp.findCreditsRecord fee true [] params = .ok ar →
       resolveTransferRecords penv rp fee true t params none feeRec =
         (match getCreditsRecord penv rp fee [ar.nonce] feeRec params with
          | .error e => .error e
          | .ok fr => .ok (some ar, some fr))) ∧
    (∀ (penv : ParseEnv) (rp : RecordProviderOracle) (kenv : TransferKeyEnv)
       (amount1 amount2 : Nat) (recipient t : String) (fee : Nat) (pf : Bool)
       (params : Option RecordSearchParams) (aRec fRec : Option (Rec ⊕ String)),
       (buildTransferTransaction penv rp kenv amount1 recipient t fee pf params
           aRec fRec).map (fun b => b.amountRecord) =
       (buildTransferTransaction penv rp kenv amount2 recipient t fee pf params
           aRec fRec).map (fun b => b.amountRecord)) := by
  refine ⟨?_, ?_, ?_⟩
  · intro penv rp fee t params feeRec ar hreq hfind
    unfold resolveTransferRecords getCreditsRecord
    simp [hreq, hfind]
  · intro penv rp fee t params feeRec ar hreq hfind
    unfold resolveTransferRecords
    conv_lhs => rw [getCreditsRecord]
    simp [hreq, hfind]
  · intro penv rp kenv amount1 amount2 recipient t fee pf params aRec fRec
    unfold buildTransferTransaction
    cases hv : validateTransferType t with
    | error e => simp
    | ok tt =>
      simp only []
      cases hk1 : kenv.feeKeys pf with
      | error e => simp
      | ok fk =>
        cases hk2 : kenv.transferKeys tt with
        | error e => simp
        | ok tk =>
          cases hr : resolveTransferRecords penv rp fee pf tt params aRec fRec with
          | error e => simp
          | ok arfr => rfl

theorem transfer_amount_record_uses_fee_target_witness :
    resolveTransferRecords ⟨fun _ => none⟩
      ⟨fun amount _ _ _ => .ok ⟨true, "n1", "s1", amount⟩⟩
      25 false "private" none none none = .ok (some ⟨true, "n1", "s1", 25⟩, none) :=
  transfer_amount_record_uses_fee_target.1 ⟨fun _ => none⟩
    ⟨fun amount _ _ _ => .ok ⟨true, "n1", "s1", amount⟩⟩
    25 "private" none none ⟨true, "n1", "s1", 25⟩ (by rfl) (by rfl)

/-- C10: in the method findCreditsRecords of NetworkRecordProvider a
caller-supplied startHeight takes effect only when the parameters also
carry a numeric endHeight; when endHeight is absent (or not a number) the
search runs from height 0 up to the current chain height. -/
theorem findCreditsRecords_height_defaults :
    (∀ (env : NetEnv) (m : List Nat) (u : Bool) (ns : List String) (s : Int),
       findCreditsRecords env m u ns (some ⟨some s, none⟩) =
         (match env.latestHeight with
          | .error _ => .error "Unable to get current block height from the network"
          | .ok latest =>
            if (0 : Int) ≥ latest then .error "Start height must be less than end height"
            else findUnspentRecords env 0 (some latest) (some m) none (some ns))) ∧
    (∀ (env : NetEnv) (m : List Nat) (u : Bool) (ns : List String) (s e : Int),
       e ≠ 0 →
       findCreditsRecords env m u ns (some ⟨some s, some e⟩) =
         (if s ≥ e then .error "Start height must be less than end height"
          else findUnspentRecords env s (some e) (some m) none (some ns))) := by
  constructor
  · intro env m u ns s
    unfold findCreditsRecords
    cases hL : env.latestHeight with
    | error e => simp [hL]
    | ok latest => simp [hL]
  · intro env m u ns s e he
    unfold findCreditsRecords
    simp [he]

theorem findCreditsRecords_height_defaults_witness :
    findCreditsRecords sampleEnv [] true [] (some ⟨some 0, some 10⟩) =
      (if (0 : Int) ≥ 10 then .error "Start height must be less than end height"
       else findUnspentRecords sampleEnv 0 (some 10) (some []) none (some [])) :=
  findCreditsRecords_height_defaults.2 sampleEnv [] true [] 0 10 (by norm_num)

/-! Claim theorem for execution building. -/

/-- C8: in buildExecutionTransaction (and run), when explicit
proving/verifying keys are not supplied and the functionKeys call of the
key provider fails, the failure is only logged and the build proceeds
with the keys left as supplied (undefined when absent), so the external
engine can synthesize them; a function-key resolution failure alone never
makes the operation fail. -/
theorem functionKeys_failure_nonfatal :
    (∀ (env : ExecEnv) (penv : ParseEnv) (rp : RecordProviderOracle)
       (account : Option String) (options : ExecuteOptions) (e : String)
       (prog pk : String) (fk : List Nat × List Nat),
       options.program = some prog →
       options.privateKey = some pk →
       options.privateFee = false →
       env.feePublicKeys = .ok fk →
       env.numImports prog = 0 →
       env.functionKeys options.keySearchParams = .error e →
       buildExecutionTransaction env penv rp account options =
         .ok ⟨pk, prog, options.functionName, options.inputs, options.fee, none,
           options.imports, options.provingKey, options.verifyingKey, fk.1, fk.2⟩) ∧
    (∀ (env : ExecEnv) (account : Option String) (program functionName : String)
       (inputs : List String) (proveExecution : Bool)
       (imports : Option (List (String × String)))
       (ksp : Option KeySearchParams) (pkO vkO : Option (List Nat))
       (pk e : String),
       env.functionKeys ksp = .error e →
       run env account program functionName inputs proveExecution imports ksp
         pkO vkO (some pk) =
         .ok ⟨pk, program, functionName, inputs, proveExecution, imports, pkO, vkO⟩) := by
  constructor
  · intro env penv rp account options e prog pk fk hprog hpk hpf hfk hni henv
    unfold buildExecutionTransaction
    rw [hprog, hpk, hpf, hfk, henv]
    simp [hni]
  · intro env account program functionName inputs proveExecution imports ksp
      pkO vkO pk e henv
    unfold run
    rw [henv]
    simp

theorem functionKeys_failure_nonfatal_witness :
    buildExecutionTransaction execEnv0 ⟨fun _ => none⟩
      ⟨fun _ _ _ _ => .error ""⟩ none execOpts0 =
      .ok ⟨"sk", "program prog.aleo;", "main", [], 10, none, none, none, none,
        [3], [4]⟩ :=
  functionKeys_failure_nonfatal.1 execEnv0 ⟨fun _ => none⟩
    ⟨fun _ _ _ _ => .error ""⟩ none execOpts0 "nokeys" "program prog.aleo;" "sk"
    ([3], [4]) rfl rfl rfl rfl rfl rfl

end AleoSdk
